import Mathlib

/-!
Verification of the schema-driven structured-output compiler and document
renderer of `ai-pdf-extractor` (`src/schemaLoader.ts`, `src/index.ts`,
`src/types.ts`), via a shallow embedding in Lean.

The embedding models JavaScript values reachable from `JSON.parse` as the
inductive type `Json` (objects keep property-insertion order, as JS objects
do), and models the fallible parts of the code (property access on a
possibly-`null` base, which throws a `TypeError` in JS) with `Except Unit`.
-/

/-- JSON values as produced by `JSON.parse`. Objects are association lists in
property-insertion order, matching the enumeration order of `Object.entries`
and object spread in JS. Numbers are modelled as integers (every numeric
value relevant to the claims is integral). -/
inductive Json where
  | null : Json
  | bool : Bool → Json
  | num : Int → Json
  | str : String → Json
  | arr : List Json → Json
  | obj : List (String × Json) → Json

/-- Whether a `Json` value is the JSON `null`. -/
def Json.isNull : Json → Bool
  | .null => true
  | _ => false

/-- JavaScript truthiness of a JSON value: `null`, `false`, `0` and `""` are
falsy; every object and array (even empty) is truthy. -/
def Json.truthy : Json → Bool
  | .null => false
  | .bool b => b
  | .num n => n != 0
  | .str s => s.length != 0
  | .arr _ => true
  | .obj _ => true

/-- Value of the own property `k` of a JSON value, `none` meaning JS
`undefined`. The source only ever reads the keys `"type"`, `"items"`,
`"properties"` and `"format"` through this operation; none of those is an
index key or a built-in of arrays/strings, so non-object bases yield
`undefined`. For an object, the first binding wins (JS objects cannot hold
duplicate keys, so on objects reachable from `JSON.parse` this is exact). -/
def Json.lookupKey : Json → String → Option Json
  | .obj kvs, k => (kvs.find? (fun kv => kv.1 == k)).map (fun kv => kv.2)
  | _, _ => none

/-- JS member access `v.k`: throws a `TypeError` (modelled as `.error ()`)
when the base is `null`, otherwise yields the property value. -/
def Json.member (v : Json) (k : String) : Except Unit (Option Json) :=
  match v with
  | .null => .error ()
  | w => .ok (w.lookupKey k)

/-- Truthiness of a possibly-`undefined` value (`undefined` is falsy). -/
def truthyOpt : Option Json → Bool
  | none => false
  | some j => j.truthy

/-- Strict equality `x === "s"` of a possibly-`undefined` value against a
string literal. -/
def isStrEq (o : Option Json) (s : String) : Bool :=
  match o with
  | some (.str t) => t == s
  | _ => false

/-- JS `a || b` where `a` is a possibly-`undefined` value: `a` when truthy,
otherwise `b`. -/
def jsOr (a : Option Json) (b : Json) : Json :=
  match a with
  | some v => if v.truthy then v else b
  | none => b

/-- The defined value of a guarded-truthy lookup (`truthyOpt o = true`
guarantees `o = some v`; the default is never reached under that guard). -/
def jsOrJ (o : Option Json) : Json := o.getD Json.null

/-- Index entries of an array, as produced by `Object.entries` / spread:
keys are the decimal string indices in order. -/
def arrIdxEntries : List Json → Nat → List (String × Json)
  | [], _ => []
  | x :: rest, i => (Nat.repr i, x) :: arrIdxEntries rest (i + 1)

/-- Index entries of a string: one single-character string per position. -/
def strIdxEntries : List Char → Nat → List (String × Json)
  | [], _ => []
  | c :: rest, i => (Nat.repr i, Json.str (String.mk [c])) :: strIdxEntries rest (i + 1)

/-- Own enumerable string-keyed entries of a JSON value, as produced both by
`Object.entries(v)` and by object spread `{ ...v }`: an object's bindings in
order; index entries for arrays and strings; nothing for `null`, booleans
and numbers. -/
def jsEntries : Json → List (String × Json)
  | .obj kvs => kvs
  | .arr xs => arrIdxEntries xs 0
  | .str s => strIdxEntries s.data 0
  | _ => []

/-- Embedding of `const c = { ...v }; delete c.format;`
(`src/schemaLoader.ts` lines 87-88, 109-110 and 121-122): shallow-copy the
value's entries and drop every top-level `format` binding. -/
def cleanLeaf (v : Json) : Json :=
  Json.obj ((jsEntries v).filter (fun kv => kv.1 != "format"))

/-- The nested-properties loop of `buildFirstPageJsonSchema`: each property
value is shallow-copied minus its `format` key. -/
def cleanEntries (l : List (String × Json)) : List (String × Json) :=
  l.map (fun kv => (kv.1, cleanLeaf kv.2))

/-- The `required` list accumulated from a property list: the property
names, in enumeration order. -/
def requiredOf (l : List (String × Json)) : List Json :=
  l.map (fun kv => Json.str kv.1)

/-- The strict object node `buildFirstPageJsonSchema` produces for a nested
object's (or array item object's) property entries: cleaned properties, all
names required, `additionalProperties: false`
(`src/schemaLoader.ts` lines 92-100 and 114-119). -/
def strictObjOf (entries : List (String × Json)) : Json :=
  Json.obj [
    ("type", Json.str "object"),
    ("properties", Json.obj (cleanEntries entries)),
    ("required", Json.arr (requiredOf entries)),
    ("additionalProperties", Json.bool false)]

/-- Branch condition `prop.type === "array" && prop.items`
(`src/schemaLoader.ts` line 81). -/
def condArr (v : Json) : Bool :=
  isStrEq (v.lookupKey "type") "array" && truthyOpt (v.lookupKey "items")

/-- Branch condition of line 83: the array's `items` is an object with
truthy `properties`. Only meaningful under `condArr`. -/
def condArrObj (v : Json) : Bool :=
  condArr v &&
    (match v.lookupKey "items" with
     | some it => isStrEq (it.lookupKey "type") "object" && truthyOpt (it.lookupKey "properties")
     | none => false)

/-- Branch condition `prop.type === "object" && prop.properties`
(`src/schemaLoader.ts` line 104). -/
def condObj (v : Json) : Bool :=
  isStrEq (v.lookupKey "type") "object" && truthyOpt (v.lookupKey "properties")

/-- Normalization of one declared property value, the loop body of
`buildFirstPageJsonSchema` (`src/schemaLoader.ts` lines 77-126). Reading
`prop.type` on a `null` property value throws a `TypeError` in JS; for a
non-`null` value every later member access sits behind a truthiness guard,
so the rest of the body is total. -/
def normalizeOneProp (v : Json) : Except Unit Json :=
  if v.isNull then .error ()
  else if condArr v then
    match v.lookupKey "items" with
    | some it =>
      if isStrEq (it.lookupKey "type") "object" && truthyOpt (it.lookupKey "properties") then
        .ok (Json.obj [
          ("type", Json.str "array"),
          ("items", strictObjOf (jsEntries (jsOrJ (it.lookupKey "properties"))))])
      else
        .ok (Json.obj (jsEntries v))
    | none => .ok (Json.obj (jsEntries v))
  else if condObj v then
    .ok (strictObjOf (jsEntries (jsOrJ (v.lookupKey "properties"))))
  else
    .ok (cleanLeaf v)

/-- The `for (const [key, value] of Object.entries(properties))` loop of
`buildFirstPageJsonSchema`: normalize each property in order, propagating a
thrown `TypeError`. -/
def normalizeEntries : List (String × Json) → Except Unit (List (String × Json))
  | [] => .ok []
  | (k, v) :: rest =>
    match normalizeOneProp v with
    | .error e => .error e
    | .ok w =>
      match normalizeEntries rest with
      | .error e => .error e
      | .ok ws => .ok ((k, w) :: ws)

/-- The effective property map `(schema.firstPageSchema).properties || {}`
(`src/schemaLoader.ts` line 71), defined for a non-`null` first-page node. -/
def effProps (fps : Json) : Json :=
  jsOr (fps.lookupKey "properties") (Json.obj [])

/-- The normalized first-page schema node (the `schema` field of the payload
built by `buildFirstPageJsonSchema`, `src/schemaLoader.ts` lines 70-141).
The input is the `firstPageSchema` member of the `SchemaDefinition`; reading
`.properties` on it throws when it is `null`. -/
def buildFirstPageInner (fps : Json) : Except Unit Json :=
  if fps.isNull then .error ()
  else
    match normalizeEntries (jsEntries (effProps fps)) with
    | .error e => .error e
    | .ok sp =>
      .ok (Json.obj [
        ("type", Json.str "object"),
        ("properties", Json.obj sp),
        ("required", Json.arr (requiredOf (jsEntries (effProps fps)))),
        ("additionalProperties", Json.bool false)])

/-- The full structured-output payload returned by
`buildFirstPageJsonSchema` (`src/schemaLoader.ts` lines 128-140). -/
def buildFirstPageJsonSchema (fps : Json) : Except Unit Json :=
  match buildFirstPageInner fps with
  | .error e => .error e
  | .ok s =>
    .ok (Json.obj [
      ("type", Json.str "json_schema"),
      ("json_schema", Json.obj [
        ("name", Json.str "first_page_response"),
        ("strict", Json.bool true),
        ("schema", s)])])

/-- Whether every declared top-level property value of the first-page node
is non-`null` (the condition under which `buildFirstPageJsonSchema` cannot
throw once the node itself is non-`null`). -/
def allTopPropsNonNull (fps : Json) : Bool :=
  (jsEntries (effProps fps)).all (fun kv => !kv.2.isNull)

/-- The empty strict object schema produced when the first-page node
declares no properties. -/
def emptyStrictSchema : Json :=
  Json.obj [
    ("type", Json.str "object"),
    ("properties", Json.obj []),
    ("required", Json.arr []),
    ("additionalProperties", Json.bool false)]

mutual
/-- JS `String(v)` / template-literal conversion of a JSON value:
strings unchanged, numbers and booleans in decimal/keyword form, `null`
prints `"null"`, arrays join their elements with `","` (with `null`
elements rendered empty, as `Array.prototype.join` does), plain objects
print `"[object Object]"`. -/
def jsToString : Json → String
  | .null => "null"
  | .bool true => "true"
  | .bool false => "false"
  | .num n => toString n
  | .str s => s
  | .obj _ => "[object Object]"
  | .arr xs => jsArrJoin xs
def jsArrJoin : List Json → String
  | [] => ""
  | [Json.null] => ""
  | [x] => jsToString x
  | Json.null :: rest => "," ++ jsArrJoin rest
  | x :: rest => jsToString x ++ "," ++ jsArrJoin rest
end

/-- Tabular payload of a table-styled block (`src/types.ts` lines 30-33). -/
structure TableData where
  headers : List String
  rows : List (List String)

/-- One extracted content block (`src/types.ts` lines 35-40). The style tag
is kept as a plain string so that the renderer's `default` fallback for
out-of-band tags stays reachable. `text := none` covers both an absent and
a `null` text (the renderer immediately collapses both to `""` via
`para.text || ""`, and a present empty string behaves identically there).
`table := none` covers an absent or `null` table. Page numbers are JS
numbers, modelled as integers. -/
structure InnerPageParagraph where
  style : String
  text : Option String := none
  table : Option TableData := none
  pageNumber : Option Int := none

/-- The per-style dispatch of `generateInnerPagesMarkdown`
(`src/index.ts` lines 124-191): the `switch` over `para.style`, applied
after `const text = para.text || ""`. -/
def renderStyle (p : InnerPageParagraph) : List String :=
  let text := p.text.getD ""
  if p.style == "page header" then []
  else if p.style == "chapter heading" then ["## " ++ text, ""]
  else if p.style == "subheading 1" then ["### " ++ text, ""]
  else if p.style == "subheading 2" then ["#### " ++ text, ""]
  else if p.style == "body text" then [text, ""]
  else if p.style == "callout" then ["> **" ++ text ++ "**", ""]
  else if p.style == "exhibit title" then ["**" ++ text ++ "**", ""]
  else if p.style == "exhibit source" then ["*" ++ text ++ "*", ""]
  else if p.style == "bullet level 1" then ["- " ++ text]
  else if p.style == "bullet level 2" then ["  - " ++ text]
  else if p.style == "bullet level 3" then ["    - " ++ text]
  else if p.style == "page footer" then []
  else if p.style == "footnote" then ["<sup>" ++ text ++ "</sup>", ""]
  else if p.style == "table" then
    match p.table with
    | some t =>
      if t.headers.length > 0 then
        ["| " ++ String.intercalate " | " t.headers ++ " |",
         "| " ++ String.intercalate " | " (t.headers.map (fun _ => "---")) ++ " |"]
        ++ t.rows.map (fun row => "| " ++ String.intercalate " | " row ++ " |")
        ++ [""]
      else []
    | none => []
  else
    if text ≠ "" then [text, ""] else []

/-- The page-boundary marker emitted when the page number changes
(`src/index.ts` lines 119-122). -/
def pageMarker (n : Int) : List String :=
  ["", "Page " ++ toString n, "-----------------------------------------", ""]

/-- The block loop of `generateInnerPagesMarkdown` (`src/index.ts` lines
115-192) with its `currentPage` cursor, instrumented: the first component
is exactly the emitted line sequence, the second counts how many times the
page-boundary-marker branch (lines 117-123) fired. -/
def innerLoopT : Option Int → List InnerPageParagraph → List String × Nat
  | _, [] => ([], 0)
  | cur, p :: ps =>
    match p.pageNumber with
    | some n =>
      if some n = cur then
        let rest := innerLoopT cur ps
        (renderStyle p ++ rest.1, rest.2)
      else
        let rest := innerLoopT (some n) ps
        (pageMarker n ++ renderStyle p ++ rest.1, rest.2 + 1)
    | none =>
      let rest := innerLoopT cur ps
      (renderStyle p ++ rest.1, rest.2)

/-- Embedding of `generateInnerPagesMarkdown` (`src/index.ts` lines
109-196): the empty-input guard is subsumed by the loop, and `currentPage`
starts out `undefined`. -/
def generateInnerPagesMarkdown (ps : List InnerPageParagraph) : List String :=
  (innerLoopT none ps).1

/-- Number of page-boundary markers `generateInnerPagesMarkdown` emits on
an input sequence. -/
def markerCount (ps : List InnerPageParagraph) : Nat :=
  (innerLoopT none ps).2

/-- Number of maximal runs of equal adjacent values, continuing a run whose
preceding value is `c`. -/
def runCountAux : Int → List Int → Nat
  | _, [] => 0
  | c, x :: xs => if x = c then runCountAux c xs else runCountAux x xs + 1

/-- Number of maximal runs of equal adjacent values in a list. -/
def runCount : List Int → Nat
  | [] => 0
  | x :: xs => runCountAux x xs + 1

/-- Run count relative to an optional previously-seen value. -/
def runCountFrom : Option Int → List Int → Nat
  | none, l => runCount l
  | some c, l => runCountAux c l

/-- Lookup of a field of the extracted first-page record
(`firstPage[field]`); `none` is JS `undefined`. -/
def fpLookup (fp : List (String × Json)) (k : String) : Option Json :=
  ((fp.find? (fun kv => kv.1 == k)).map (fun kv => kv.2))

/-- JS `String.prototype.trim` restricted to ASCII whitespace (the labels
this program trims only ever carry a possible leading space). -/
def jsTrim (s : String) : String :=
  String.mk (((s.data.dropWhile (fun c => c.isWhitespace)).reverse.dropWhile
    (fun c => c.isWhitespace)).reverse)

/-- The metadata label derivation of `generateFirstPageMarkdown`
(`src/index.ts` lines 43-46): insert a space before each ASCII uppercase
letter (`replace(/([A-Z])/g, " $1")`), capitalize the first character
(`replace(/^./, ...)`), then trim. -/
def mkLabel (field : String) : String :=
  let spaced := field.data.foldr
    (fun c acc => if c.isUpper then ' ' :: c :: acc else c :: acc) []
  let upped :=
    match spaced with
    | [] => []
    | c :: cs => c.toUpper :: cs
  jsTrim (String.mk upped)

/-- The fixed allowlist of metadata fields (`src/index.ts` lines 27-38). -/
def metadataFields : List String :=
  ["reportType", "reportDate", "companyName", "sectorName", "bloombergCode",
   "rating", "previousRating", "targetPrice", "marketPrice", "upsideDownside"]

/-- Whether a field is present and non-`null` in the first-page record
(`firstPage[field] !== undefined && firstPage[field] !== null`,
`src/index.ts` line 42). -/
def presentNonNull (fp : List (String × Json)) (f : String) : Bool :=
  match fpLookup fp f with
  | some v => !v.isNull
  | none => false

/-- The rendered value of a metadata field: `String(firstPage[field])`,
with `%` appended for `upsideDownside` (`src/index.ts` lines 47-50). -/
def fieldValue (fp : List (String × Json)) (f : String) : String :=
  match fpLookup fp f with
  | some v =>
    let s := jsToString v
    if f == "upsideDownside" then s ++ "%" else s
  | none => ""

/-- The metadata-collection loop of `generateFirstPageMarkdown`
(`src/index.ts` lines 40-53), over an arbitrary field list. -/
def displayMetadataAux (fp : List (String × Json)) : List String → List (String × String)
  | [] => []
  | f :: fs =>
    if presentNonNull fp f then
      (mkLabel f, fieldValue fp f) :: displayMetadataAux fp fs
    else
      displayMetadataAux fp fs

/-- The `displayMetadata` rows of `generateFirstPageMarkdown`. -/
def displayMetadata (fp : List (String × Json)) : List (String × String) :=
  displayMetadataAux fp metadataFields

/-- The metadata-table lines of `generateFirstPageMarkdown`
(`src/index.ts` lines 55-62): header lines, one row per qualifying field,
a trailing blank line; nothing at all when no row qualifies. -/
def metadataTableLines (fp : List (String × Json)) : List String :=
  if (displayMetadata fp).length > 0 then
    ["| Field | Value |", "|-------|-------|"]
    ++ (displayMetadata fp).map (fun lv => "| " ++ lv.1 ++ " | " ++ lv.2 ++ " |")
    ++ [""]
  else []

/-- The title selection of `generateFirstPageMarkdown`
(`src/index.ts` line 16): `firstPage.reportTitle || firstPage.title ||
"Report"`, a JS truthiness chain. -/
def firstPageTitle (fp : List (String × Json)) : Json :=
  jsOr (fpLookup fp "reportTitle") (jsOr (fpLookup fp "title") (Json.str "Report"))

/-- The title lines of `generateFirstPageMarkdown`
(`src/index.ts` lines 17-18). -/
def titleLines (fp : List (String × Json)) : List String :=
  ["# " ++ jsToString (firstPageTitle fp), ""]

/-- The subtitle lines of `generateFirstPageMarkdown`
(`src/index.ts` lines 21-24): emitted only when `firstPage.reportSubTitle`
is truthy. -/
def subtitleLines (fp : List (String × Json)) : List String :=
  if truthyOpt (fpLookup fp "reportSubTitle") then
    ["## " ++ jsToString (jsOrJ (fpLookup fp "reportSubTitle")), ""]
  else []

/-- The prefix of `generateFirstPageMarkdown`'s output computed by
`src/index.ts` lines 12-62 (title, optional subtitle, optional metadata
table); the author/bullet/summary sections of lines 64-101 only append
lines after this prefix. -/
def firstPageMarkdownPrefix (fp : List (String × Json)) : List String :=
  titleLines fp ++ subtitleLines fp ++ metadataTableLines fp

/-- Substring test `s.includes(pat)` for a non-empty pattern, via
`splitOn`: the split has more than one part exactly when `pat` occurs. -/
def strContains (s pat : String) : Bool :=
  (s.splitOn pat).length != 1

/-- Embedding of `generateFirstPagePrompt` (`src/schemaLoader.ts` lines
48-65): reading `.properties` throws on a `null` schema; otherwise the
top-level property names are rendered as `- name` lines and the report
type is `"sector"` exactly when the schema name contains `"sector"`. -/
def generateFirstPagePrompt (schema : Json) (schemaName : String) : Except Unit String :=
  if schema.isNull then .error ()
  else
    let properties := jsOr (schema.lookupKey "properties") (Json.obj [])
    let fieldsList := String.intercalate "\n"
      ((jsEntries properties).map (fun kv => "- " ++ kv.1))
    let reportType := if strContains schemaName "sector" then "sector" else "stock research"
    .ok ("You are analyzing the first page of a " ++ reportType
      ++ " report. Extract all information from this image.\n\nExtract the following fields:\n"
      ++ fieldsList
      ++ "\n\nInstructions:\n- Extract all text exactly as shown\n- For dates, format as YYYY-MM-DD\n- For numbers, extract as numeric values\n- For arrays (like authors, bulletPoints), extract all items\n- If a field is not visible, use an appropriate default value")

/-- Rendering of the prompt as the specification describes it: a fixed
instructional template interpolating (a) the given top-level field names as
bulleted lines in order and (b) a report-type label that is `"sector"`
exactly when the schema name contains the substring `"sector"`, otherwise
`"stock research"`. Written from the spec's words, to be compared with the
source-derived `generateFirstPagePrompt`. -/
def firstPagePromptSpec (fieldNames : List String) (schemaName : String) : String :=
  let label := if strContains schemaName "sector" then "sector" else "stock research"
  let bullets := String.intercalate "\n" (fieldNames.map (fun k => "- " ++ k))
  "You are analyzing the first page of a " ++ label
    ++ " report. Extract all information from this image.\n\nExtract the following fields:\n"
    ++ bullets
    ++ "\n\nInstructions:\n- Extract all text exactly as shown\n- For dates, format as YYYY-MM-DD\n- For numbers, extract as numeric values\n- For arrays (like authors, bulletPoints), extract all items\n- If a field is not visible, use an appropriate default value"

/-- Whether a value has no top-level `format` binding (vacuously true for
non-objects, which have no bindings at all). -/
def noFmtTop : Json → Bool
  | .obj kvs => kvs.all (fun kv => kv.1 != "format")
  | _ => true

/-- A strict normalized object node: whenever a node carries
`type: "object"` together with an object-valued `properties` map, its
`required` list is exactly that map's own property names, in enumeration
order, and it sets `additionalProperties: false`. -/
def normObjOk (w : Json) : Prop :=
  ∀ np : List (String × Json),
    w.lookupKey "type" = some (Json.str "object") →
    w.lookupKey "properties" = some (Json.obj np) →
    w.lookupKey "required" = some (Json.arr (np.map (fun kv => Json.str kv.1)))
      ∧ w.lookupKey "additionalProperties" = some (Json.bool false)

/-- Strictness of one normalized property node: the node itself satisfies
`normObjOk`, and so does the item node of an array-typed node. -/
def strictNodeOk (w : Json) : Prop :=
  normObjOk w ∧
    (w.lookupKey "type" = some (Json.str "array") →
      ∀ it : Json, w.lookupKey "items" = some it → normObjOk it)

/-- Property values (one nesting level down) of a normalized object node
all lack a top-level `format` binding. -/
def ownPropsNoFmtTop (w : Json) : Bool :=
  match w.lookupKey "properties" with
  | some (Json.obj np) => np.all (fun kv => noFmtTop kv.2)
  | _ => true

/-- The item object of an array node satisfies `ownPropsNoFmtTop`. -/
def itemsPropsNoFmtTop (w : Json) : Bool :=
  match w.lookupKey "items" with
  | some it => ownPropsNoFmtTop it
  | none => true

/-- A raw first-page node holding one array-typed property `foo` whose
`items` is not an object with properties, and which carries a `format`
keyword. Reachable through the real pipeline from the schema document
`{"properties": {"firstPage": {"properties": {"foo": {"type": "array",
"items": {"type": "number"}, "format": "int32"}}}}}`. -/
def c1raw : Json :=
  Json.obj [("properties", Json.obj [
    ("foo", Json.obj [
      ("type", Json.str "array"),
      ("items", Json.obj [("type", Json.str "number")]),
      ("format", Json.str "int32")])])]

/-- A raw first-page node with a `null`-valued top-level property, on which
`buildFirstPageJsonSchema` throws (`prop.type` on `null`). Reachable from
the schema document `{"properties": {"firstPage": {"properties":
{"a": null}}}}`. -/
def c7raw : Json :=
  Json.obj [("properties", Json.obj [("a", Json.null)])]

/-- The style tags whose `switch` arm renders the block's text into a
formatted line (every recognized tag except `page header`, `page footer`
and `table`). -/
def recognizedTextStyles : List String :=
  ["chapter heading", "subheading 1", "subheading 2", "body text", "callout",
   "exhibit title", "exhibit source", "bullet level 1", "bullet level 2",
   "bullet level 3", "footnote"]

/-- The full closed set of fourteen recognized style tags
(`src/types.ts` lines 14-28). -/
def allStyles : List String :=
  ["page header", "page footer", "table"] ++ recognizedTextStyles

/-- The lines each text-rendering style produces when its text is missing:
the style's fixed formatting applied to the empty string. -/
def emptyTextLines (style : String) : List String :=
  if style == "chapter heading" then ["## ", ""]
  else if style == "subheading 1" then ["### ", ""]
  else if style == "subheading 2" then ["#### ", ""]
  else if style == "body text" then ["", ""]
  else if style == "callout" then ["> ****", ""]
  else if style == "exhibit title" then ["****", ""]
  else if style == "exhibit source" then ["**", ""]
  else if style == "bullet level 1" then ["- "]
  else if style == "bullet level 2" then ["  - "]
  else if style == "bullet level 3" then ["    - "]
  else if style == "footnote" then ["<sup></sup>", ""]
  else []

/-- The spec's scenario input: a first-page node declaring an `authors`
array of objects, with a `format` keyword under `email`. -/
def c3fps : Json :=
  Json.obj [("properties", Json.obj [
    ("authors", Json.obj [
      ("type", Json.str "array"),
      ("items", Json.obj [
        ("type", Json.str "object"),
        ("properties", Json.obj [
          ("name", Json.obj [("type", Json.str "string")]),
          ("email", Json.obj [("type", Json.str "string"), ("format", Json.str "email")])])])])])]

/-- The normalized schema node produced from `c3fps`. -/
def c3out : Json :=
  Json.obj [
    ("type", Json.str "object"),
    ("properties", Json.obj [
      ("authors", Json.obj [
        ("type", Json.str "array"),
        ("items", Json.obj [
          ("type", Json.str "object"),
          ("properties", Json.obj [
            ("name", Json.obj [("type", Json.str "string")]),
            ("email", Json.obj [("type", Json.str "string")])]),
          ("required", Json.arr [Json.str "name", Json.str "email"]),
          ("additionalProperties", Json.bool false)])])]),
    ("required", Json.arr [Json.str "authors"]),
    ("additionalProperties", Json.bool false)]

/-- A first-page node with one scalar property carrying a `format` keyword. -/
def c4fps : Json :=
  Json.obj [("properties", Json.obj [
    ("a", Json.obj [("type", Json.str "string"), ("format", Json.str "date")])])]

/-- The normalized schema node produced from `c4fps`. -/
def c4out : Json :=
  Json.obj [
    ("type", Json.str "object"),
    ("properties", Json.obj [("a", Json.obj [("type", Json.str "string")])]),
    ("required", Json.arr [Json.str "a"]),
    ("additionalProperties", Json.bool false)]

lemma digitChar_isDigit (n : Nat) (h : n < 10) : (Nat.digitChar n).isDigit = true := by
  interval_cases n <;> decide

lemma toDigitsCore_isDigit (fuel n : Nat) (ds : List Char)
    (hds : ∀ c ∈ ds, c.isDigit = true) :
    ∀ c ∈ Nat.toDigitsCore 10 fuel n ds, c.isDigit = true := by
  induction fuel generalizing n ds with
  | zero => simpa [Nat.toDigitsCore] using hds
  | succ fuel ih =>
    intro c hc
    rw [Nat.toDigitsCore] at hc
    have hd : ∀ x ∈ (Nat.digitChar (n % 10) :: ds), x.isDigit = true := by
      intro x hx
      rcases List.mem_cons.mp hx with h | h
      · exact h ▸ digitChar_isDigit _ (Nat.mod_lt _ (by decide))
      · exact hds x h
    by_cases hz : n / 10 = 0
    · rw [if_pos hz] at hc
      exact hd c hc
    · rw [if_neg hz] at hc
      exact ih (n / 10) _ hd c hc

lemma repr_isDigit (n : Nat) : ∀ c ∈ (Nat.repr n).data, c.isDigit = true := by
  intro c hc
  have : (Nat.repr n).data = Nat.toDigitsCore 10 (n + 1) n [] := rfl
  rw [this] at hc
  exact toDigitsCore_isDigit (n + 1) n [] (by simp) c hc

lemma repr_beq_false (n : Nat) (s : String)
    (hs : s.data.all (fun c => c.isDigit) = false) : (Nat.repr n == s) = false := by
  rw [beq_eq_false_iff_ne]
  intro he
  rw [← he] at hs
  rw [List.all_eq_false] at hs
  obtain ⟨c, hc, hcd⟩ := hs
  exact hcd (repr_isDigit n c hc)

lemma find?_arrIdxEntries_none (k : String)
    (hk : k.data.all (fun c => c.isDigit) = false) :
    ∀ (xs : List Json) (i : Nat),
      (arrIdxEntries xs i).find? (fun kv => kv.1 == k) = none := by
  intro xs
  induction xs with
  | nil => intro i; rfl
  | cons x rest ih =>
    intro i
    rw [arrIdxEntries, List.find?]
    simp only [repr_beq_false i k hk]
    exact ih (i + 1)

lemma find?_strIdxEntries_none (k : String)
    (hk : k.data.all (fun c => c.isDigit) = false) :
    ∀ (cs : List Char) (i : Nat),
      (strIdxEntries cs i).find? (fun kv => kv.1 == k) = none := by
  intro cs
  induction cs with
  | nil => intro i; rfl
  | cons c rest ih =>
    intro i
    rw [strIdxEntries, List.find?]
    simp only [repr_beq_false i k hk]
    exact ih (i + 1)

lemma find?_filter_fmt (k : String) (hk : (k == "format") = false)
    (l : List (String × Json)) :
    (l.filter (fun kv => kv.1 != "format")).find? (fun kv => kv.1 == k)
      = l.find? (fun kv => kv.1 == k) := by
  induction l with
  | nil => rfl
  | cons kv tl ih =>
    by_cases hf : (kv.1 == "format") = true
    · have h1 : kv.1 = "format" := by simpa using hf
      have hkv : (kv.1 == k) = false := by
        rw [beq_eq_false_iff_ne] at hk ⊢
        rw [h1]
        exact fun e => hk e.symm
      have hb : (kv.1 != "format") = false := by simp [bne, hf]
      simp only [List.filter_cons, hb, Bool.false_eq_true, if_false]
      rw [ih, List.find?]
      simp only [hkv]
    · have hb : (kv.1 != "format") = true := by
        simp only [bne, Bool.not_eq_true']
        simpa using hf
      simp only [List.filter_cons, hb, if_true]
      rw [List.find?, List.find?]
      cases hkk : (kv.1 == k) with
      | true => simp
      | false => simpa using ih

/-- The keys the normalizer branches on keep their value under top-level
`format` deletion, on every JSON value. -/
lemma lookupKey_cleanLeaf (v : Json) (k : String)
    (hk : (k == "format") = false)
    (hkd : k.data.all (fun c => c.isDigit) = false) :
    (cleanLeaf v).lookupKey k = v.lookupKey k := by
  cases v with
  | obj kvs =>
    simp only [cleanLeaf, jsEntries, Json.lookupKey]
    rw [find?_filter_fmt k hk]
  | arr xs =>
    simp only [cleanLeaf, jsEntries, Json.lookupKey]
    rw [find?_filter_fmt k hk, find?_arrIdxEntries_none k hkd]
    rfl
  | str s =>
    simp only [cleanLeaf, jsEntries, Json.lookupKey]
    rw [find?_filter_fmt k hk, find?_strIdxEntries_none k hkd]
    rfl
  | null => rfl
  | bool b => rfl
  | num n => rfl

lemma filter_fmt_idem (l : List (String × Json)) :
    ((l.filter (fun kv => kv.1 != "format")).filter (fun kv => kv.1 != "format"))
      = l.filter (fun kv => kv.1 != "format") := by
  induction l with
  | nil => rfl
  | cons kv tl ih =>
    by_cases hf : (kv.1 != "format") = true
    · simp only [List.filter_cons, hf, if_true, ih]
    · have hf2 : (kv.1 != "format") = false := by simpa using hf
      simp only [List.filter_cons, hf2, Bool.false_eq_true, if_false, ih]

lemma cleanLeaf_idem (v : Json) : cleanLeaf (cleanLeaf v) = cleanLeaf v := by
  show Json.obj _ = Json.obj _
  rw [show jsEntries (cleanLeaf v) = (jsEntries v).filter (fun kv => kv.1 != "format") from rfl]
  exact congrArg Json.obj (filter_fmt_idem (jsEntries v))

lemma cleanEntries_idem (l : List (String × Json)) :
    cleanEntries (cleanEntries l) = cleanEntries l := by
  induction l with
  | nil => rfl
  | cons kv tl ih =>
    simp only [cleanEntries, List.map_cons] at ih ⊢
    rw [cleanLeaf_idem, ih]

lemma requiredOf_cleanEntries (l : List (String × Json)) :
    requiredOf (cleanEntries l) = requiredOf l := by
  simp [requiredOf, cleanEntries, List.map_map]

lemma strictObjOf_cleanEntries (l : List (String × Json)) :
    strictObjOf (cleanEntries l) = strictObjOf l := by
  simp only [strictObjOf, cleanEntries_idem, requiredOf_cleanEntries]

/-- A value with an own property is an object, hence equal to the object of
its entries. -/
lemma obj_jsEntries_of_lookupKey (v : Json) (k : String) (x : Json)
    (h : v.lookupKey k = some x) : Json.obj (jsEntries v) = v := by
  cases v with
  | obj kvs => rfl
  | null => simp [Json.lookupKey] at h
  | bool b => simp [Json.lookupKey] at h
  | num n => simp [Json.lookupKey] at h
  | str s => simp [Json.lookupKey] at h
  | arr xs => simp [Json.lookupKey] at h

/-- A value with an own property is truthy. -/
lemma truthy_of_lookupKey (v : Json) (k : String) (x : Json)
    (h : v.lookupKey k = some x) : v.truthy = true := by
  cases v with
  | obj kvs => rfl
  | null => simp [Json.lookupKey] at h
  | bool b => simp [Json.lookupKey] at h
  | num n => simp [Json.lookupKey] at h
  | str s => simp [Json.lookupKey] at h
  | arr xs => simp [Json.lookupKey] at h

/-- Exhaustive description of the four branches of the property-loop body
of `buildFirstPageJsonSchema`. -/
lemma normalizeOneProp_spec (v w : Json) (h : normalizeOneProp v = .ok w) :
    v.isNull = false ∧
    ((condArr v = true ∧ ∃ it, v.lookupKey "items" = some it ∧
       (((isStrEq (it.lookupKey "type") "object" && truthyOpt (it.lookupKey "properties")) = true ∧
           w = Json.obj [
             ("type", Json.str "array"),
             ("items", strictObjOf (jsEntries (jsOrJ (it.lookupKey "properties"))))]) ∨
        ((isStrEq (it.lookupKey "type") "object" && truthyOpt (it.lookupKey "properties")) = false ∧
           w = Json.obj (jsEntries v))))
     ∨ (condArr v = false ∧ condObj v = true ∧
          w = strictObjOf (jsEntries (jsOrJ (v.lookupKey "properties"))))
     ∨ (condArr v = false ∧ condObj v = false ∧ w = cleanLeaf v)) := by
  unfold normalizeOneProp at h
  by_cases hn : v.isNull = true
  · rw [if_pos hn] at h
    exact absurd h (by simp)
  · have hn2 : v.isNull = false := by simpa using hn
    rw [if_neg hn] at h
    refine ⟨hn2, ?_⟩
    by_cases ha : condArr v = true
    · simp only [ha, if_true] at h
      left
      cases hit : v.lookupKey "items" with
      | none =>
        unfold condArr at ha
        rw [hit] at ha
        simp [truthyOpt] at ha
      | some it =>
        rw [hit] at h
        have h2 : (if (isStrEq (it.lookupKey "type") "object"
              && truthyOpt (it.lookupKey "properties")) = true then
            Except.ok (Json.obj [
              ("type", Json.str "array"),
              ("items", strictObjOf (jsEntries (jsOrJ (it.lookupKey "properties"))))])
          else Except.ok (Json.obj (jsEntries v))) = Except.ok w := h
        refine ⟨ha, it, rfl, ?_⟩
        by_cases hio : (isStrEq (it.lookupKey "type") "object" && truthyOpt (it.lookupKey "properties")) = true
        · rw [if_pos hio] at h2
          exact Or.inl ⟨hio, by simpa using h2.symm⟩
        · rw [if_neg hio] at h2
          exact Or.inr ⟨by simpa using hio, by simpa using h2.symm⟩
    · have ha2 : condArr v = false := by simpa using ha
      simp only [ha2, Bool.false_eq_true, if_false] at h
      by_cases ho : condObj v = true
      · rw [if_pos (by simp [ho])] at h
        exact Or.inr (Or.inl ⟨ha2, ho, by simpa using h.symm⟩)
      · rw [if_neg (by simpa using ho)] at h
        exact Or.inr (Or.inr ⟨ha2, by simpa using ho, by simpa using h.symm⟩)

lemma isStrEq_eq (o : Option Json) (s : String) (h : isStrEq o s = true) :
    o = some (Json.str s) := by
  cases o with
  | none => exact Bool.noConfusion ((show isStrEq none s = false from rfl) ▸ h)
  | some j =>
    cases j with
    | null => exact Bool.noConfusion ((show isStrEq (some Json.null) s = false from rfl) ▸ h)
    | bool b => exact Bool.noConfusion ((show isStrEq (some (Json.bool b)) s = false from rfl) ▸ h)
    | num n => exact Bool.noConfusion ((show isStrEq (some (Json.num n)) s = false from rfl) ▸ h)
    | str t =>
      have h2 : (t == s) = true := h
      rw [beq_iff_eq] at h2
      rw [h2]
    | arr xs => exact Bool.noConfusion ((show isStrEq (some (Json.arr xs)) s = false from rfl) ▸ h)
    | obj kvs => exact Bool.noConfusion ((show isStrEq (some (Json.obj kvs)) s = false from rfl) ▸ h)

lemma truthyOpt_some (o : Option Json) (h : truthyOpt o = true) :
    ∃ j, o = some j ∧ j.truthy = true := by
  cases o with
  | none => exact Bool.noConfusion ((show truthyOpt none = false from rfl) ▸ h)
  | some j => exact ⟨j, rfl, h⟩

lemma normObjOk_strictObjOf (E : List (String × Json)) : normObjOk (strictObjOf E) := by
  intro np hty hpr
  rw [show (strictObjOf E).lookupKey "properties" = some (Json.obj (cleanEntries E)) from rfl] at hpr
  have hnp : cleanEntries E = np := by simpa using hpr
  constructor
  · show (strictObjOf E).lookupKey "required" = some (Json.arr (requiredOf np))
    rw [← hnp, requiredOf_cleanEntries]
    rfl
  · rfl

/-- Every normalized property node is strict in the sense of `strictNodeOk`. -/
lemma normalizeOneProp_strict (v w : Json) (h : normalizeOneProp v = .ok w) :
    strictNodeOk w := by
  obtain ⟨hn, hbr⟩ := normalizeOneProp_spec v w h
  rcases hbr with ⟨ha, it, hit, hin⟩ | ⟨ha, ho, hw⟩ | ⟨ha, ho, hw⟩
  · have ha' := ha
    unfold condArr at ha'
    rw [Bool.and_eq_true] at ha'
    obtain ⟨ha1, ha2⟩ := ha'
    rcases hin with ⟨hio, hw⟩ | ⟨hio, hw⟩
    · subst hw
      constructor
      · intro np hty _
        rw [show (Json.obj [("type", Json.str "array"),
            ("items", strictObjOf (jsEntries (jsOrJ (it.lookupKey "properties"))))]).lookupKey "type"
            = some (Json.str "array") from rfl] at hty
        simp at hty
      · intro _ it2 hit2
        rw [show (Json.obj [("type", Json.str "array"),
            ("items", strictObjOf (jsEntries (jsOrJ (it.lookupKey "properties"))))]).lookupKey "items"
            = some (strictObjOf (jsEntries (jsOrJ (it.lookupKey "properties")))) from rfl] at hit2
        have h2 : strictObjOf (jsEntries (jsOrJ (it.lookupKey "properties"))) = it2 := by
          simpa using hit2
        rw [← h2]
        exact normObjOk_strictObjOf _
    · have hty := isStrEq_eq _ _ ha1
      have hv : Json.obj (jsEntries v) = v := obj_jsEntries_of_lookupKey v "type" _ hty
      rw [hw, hv]
      constructor
      · intro np hty2 _
        rw [hty] at hty2
        simp at hty2
      · intro _ it2 hit2
        rw [hit] at hit2
        have h2 : it = it2 := by simpa using hit2
        subst h2
        intro np h1 h2
        rw [show isStrEq (it.lookupKey "type") "object"
            = isStrEq (some (Json.str "object")) "object" from by rw [h1]] at hio
        rw [show truthyOpt (it.lookupKey "properties")
            = truthyOpt (some (Json.obj np)) from by rw [h2]] at hio
        simp [isStrEq, truthyOpt, Json.truthy] at hio
  · subst hw
    constructor
    · exact normObjOk_strictObjOf _
    · intro _ it2 hit2
      rw [show (strictObjOf (jsEntries (jsOrJ (v.lookupKey "properties")))).lookupKey "items"
          = none from rfl] at hit2
      exact Option.noConfusion hit2
  · subst hw
    constructor
    · intro np hty hpr
      rw [lookupKey_cleanLeaf v "type" (by decide) (by decide)] at hty
      rw [lookupKey_cleanLeaf v "properties" (by decide) (by decide)] at hpr
      have hco : condObj v = true := by
        unfold condObj
        rw [hty, hpr]
        rfl
      rw [hco] at ho
      exact absurd ho (by decide)
    · intro hta it2 hit2
      rw [lookupKey_cleanLeaf v "type" (by decide) (by decide)] at hta
      rw [lookupKey_cleanLeaf v "items" (by decide) (by decide)] at hit2
      have hfalsy : it2.truthy = false := by
        have hca : condArr v = false := ha
        unfold condArr at hca
        rw [hta, hit2] at hca
        simpa [isStrEq, truthyOpt] using hca
      intro np _ h2
      rw [truthy_of_lookupKey it2 "properties" _ h2] at hfalsy
      exact absurd hfalsy (by decide)

/-- Normalizing an already-normalized property value is the identity. -/
lemma normalizeOneProp_idem (v w : Json) (h : normalizeOneProp v = .ok w) :
    normalizeOneProp w = .ok w := by
  obtain ⟨hn, hbr⟩ := normalizeOneProp_spec v w h
  rcases hbr with ⟨ha, it, hit, hin⟩ | ⟨ha, ho, hw⟩ | ⟨ha, ho, hw⟩
  · have ha' := ha
    unfold condArr at ha'
    rw [Bool.and_eq_true] at ha'
    obtain ⟨ha1, ha2⟩ := ha'
    rcases hin with ⟨hio, hw⟩ | ⟨hio, hw⟩
    · subst hw
      show Except.ok (Json.obj [("type", Json.str "array"),
          ("items", strictObjOf (cleanEntries (jsEntries (jsOrJ (it.lookupKey "properties")))))])
        = Except.ok (Json.obj [("type", Json.str "array"),
          ("items", strictObjOf (jsEntries (jsOrJ (it.lookupKey "properties"))))])
      rw [strictObjOf_cleanEntries]
    · have hty := isStrEq_eq _ _ ha1
      have hv : Json.obj (jsEntries v) = v := obj_jsEntries_of_lookupKey v "type" _ hty
      rw [hw, hv]
      rw [hw, hv] at h
      exact h
  · subst hw
    show Except.ok (strictObjOf (cleanEntries (jsEntries (jsOrJ (v.lookupKey "properties")))))
      = Except.ok (strictObjOf (jsEntries (jsOrJ (v.lookupKey "properties"))))
    rw [strictObjOf_cleanEntries]
  · subst hw
    have h1 : (cleanLeaf v).isNull = false := rfl
    have hty := lookupKey_cleanLeaf v "type" (by decide) (by decide)
    have hitk := lookupKey_cleanLeaf v "items" (by decide) (by decide)
    have hprk := lookupKey_cleanLeaf v "properties" (by decide) (by decide)
    have hca : condArr (cleanLeaf v) = false := by
      unfold condArr
      rw [hty, hitk]
      exact ha
    have hco : condObj (cleanLeaf v) = false := by
      unfold condObj
      rw [hty, hprk]
      exact ho
    unfold normalizeOneProp
    rw [if_neg (by simp [h1]), if_neg (by simp [hca]), if_neg (by simp [hco]),
      cleanLeaf_idem]


lemma noFmtTop_cleanLeaf (v : Json) : noFmtTop (cleanLeaf v) = true := by
  show ((jsEntries v).filter (fun kv => kv.1 != "format")).all (fun kv => kv.1 != "format") = true
  exact List.all_eq_true.mpr (fun x hx => (List.mem_filter.mp hx).2)

lemma cleanEntries_noFmt (l : List (String × Json)) :
    (cleanEntries l).all (fun kv => noFmtTop kv.2) = true := by
  induction l with
  | nil => rfl
  | cons kv tl ih =>
    simp only [cleanEntries, List.map_cons, List.all_cons] at ih ⊢
    rw [Bool.and_eq_true]
    exact ⟨noFmtTop_cleanLeaf kv.2, ih⟩

/-- The format-deletion facts of each branch of the property loop. -/
lemma normalizeOneProp_format (v w : Json) (h : normalizeOneProp v = .ok w) :
    (condArrObj v = true → noFmtTop w = true ∧ itemsPropsNoFmtTop w = true) ∧
    (condArr v = true → condArrObj v = false → w = Json.obj (jsEntries v)) ∧
    (condArr v = false → condObj v = true → noFmtTop w = true ∧ ownPropsNoFmtTop w = true) ∧
    (condArr v = false → condObj v = false → noFmtTop w = true) := by
  obtain ⟨hn, hbr⟩ := normalizeOneProp_spec v w h
  rcases hbr with ⟨ha, it, hit, hin⟩ | ⟨ha, ho, hw⟩ | ⟨ha, ho, hw⟩
  · have hco : condArrObj v
        = (isStrEq (it.lookupKey "type") "object" && truthyOpt (it.lookupKey "properties")) := by
      unfold condArrObj
      rw [hit, ha, Bool.true_and]
    rcases hin with ⟨hio, hw⟩ | ⟨hio, hw⟩
    · subst hw
      refine ⟨fun _ => ⟨rfl, ?_⟩, fun _ hc2 => ?_, fun hc1 => ?_, fun hc1 => ?_⟩
      · show (cleanEntries (jsEntries (jsOrJ (it.lookupKey "properties")))).all
          (fun kv => noFmtTop kv.2) = true
        exact cleanEntries_noFmt _
      · rw [hco, hio] at hc2
        exact absurd hc2 (by decide)
      · rw [ha] at hc1
        exact absurd hc1 (by decide)
      · rw [ha] at hc1
        exact absurd hc1 (by decide)
    · refine ⟨fun hc => ?_, fun _ _ => hw, fun hc1 => ?_, fun hc1 => ?_⟩
      · rw [hco, hio] at hc
        exact absurd hc (by decide)
      · rw [ha] at hc1
        exact absurd hc1 (by decide)
      · rw [ha] at hc1
        exact absurd hc1 (by decide)
  · subst hw
    have hcao : condArrObj v = false := by
      unfold condArrObj
      rw [ha, Bool.false_and]
    refine ⟨fun hc => ?_, fun hc1 _ => ?_, fun _ _ => ⟨rfl, ?_⟩, fun _ hc => ?_⟩
    · rw [hcao] at hc
      exact absurd hc (by decide)
    · rw [ha] at hc1
      exact absurd hc1 (by decide)
    · show (cleanEntries (jsEntries (jsOrJ (v.lookupKey "properties")))).all
        (fun kv => noFmtTop kv.2) = true
      exact cleanEntries_noFmt _
    · rw [ho] at hc
      exact absurd hc (by decide)
  · subst hw
    refine ⟨fun hc => ?_, fun hc1 _ => ?_, fun _ hc => ?_, fun _ _ => noFmtTop_cleanLeaf v⟩
    · have hcao : condArrObj v = false := by
        unfold condArrObj
        rw [ha, Bool.false_and]
      rw [hcao] at hc
      exact absurd hc (by decide)
    · rw [ha] at hc1
      exact absurd hc1 (by decide)
    · rw [ho] at hc
      exact absurd hc (by decide)

lemma normalizeEntries_nil_spec (l' : List (String × Json))
    (h : normalizeEntries [] = .ok l') : l' = [] := by
  have h2 : Except.ok ([] : List (String × Json)) = .ok l' := h
  simpa using h2.symm

lemma normalizeEntries_cons_spec (k : String) (v : Json) (rest l' : List (String × Json))
    (h : normalizeEntries ((k, v) :: rest) = .ok l') :
    ∃ w ws, normalizeOneProp v = .ok w ∧ normalizeEntries rest = .ok ws
      ∧ l' = (k, w) :: ws := by
  unfold normalizeEntries at h
  cases hw : normalizeOneProp v with
  | error e =>
    rw [hw] at h
    exact absurd h (by simp)
  | ok w =>
    rw [hw] at h
    have h2 : (match normalizeEntries rest with
      | .error e => (.error e : Except Unit (List (String × Json)))
      | .ok ws => .ok ((k, w) :: ws)) = .ok l' := h
    cases hws : normalizeEntries rest with
    | error e =>
      rw [hws] at h2
      exact absurd h2 (by simp)
    | ok ws =>
      rw [hws] at h2
      exact ⟨w, ws, rfl, rfl, by simpa using h2.symm⟩

lemma normalizeEntries_cons_ok (k : String) (v : Json) (rest : List (String × Json))
    (w : Json) (ws : List (String × Json))
    (hw : normalizeOneProp v = .ok w) (hws : normalizeEntries rest = .ok ws) :
    normalizeEntries ((k, v) :: rest) = .ok ((k, w) :: ws) := by
  unfold normalizeEntries
  rw [hw, hws]

lemma normalizeEntries_keys (l l' : List (String × Json))
    (h : normalizeEntries l = .ok l') : l'.map Prod.fst = l.map Prod.fst := by
  induction l generalizing l' with
  | nil =>
    rw [normalizeEntries_nil_spec l' h]
  | cons kv rest ih =>
    obtain ⟨k, v⟩ := kv
    obtain ⟨w, ws, hw, hws, rfl⟩ := normalizeEntries_cons_spec k v rest l' h
    simp only [List.map_cons]
    rw [ih ws hws]

lemma normalizeEntries_requiredOf (l l' : List (String × Json))
    (h : normalizeEntries l = .ok l') : requiredOf l' = requiredOf l := by
  induction l generalizing l' with
  | nil =>
    rw [normalizeEntries_nil_spec l' h]
  | cons kv rest ih =>
    obtain ⟨k, v⟩ := kv
    obtain ⟨w, ws, hw, hws, rfl⟩ := normalizeEntries_cons_spec k v rest l' h
    simp only [requiredOf, List.map_cons] at ih ⊢
    rw [ih ws hws]

lemma normalizeEntries_idem (l l' : List (String × Json))
    (h : normalizeEntries l = .ok l') : normalizeEntries l' = .ok l' := by
  induction l generalizing l' with
  | nil =>
    rw [normalizeEntries_nil_spec l' h]
    rfl
  | cons kv rest ih =>
    obtain ⟨k, v⟩ := kv
    obtain ⟨w, ws, hw, hws, rfl⟩ := normalizeEntries_cons_spec k v rest l' h
    exact normalizeEntries_cons_ok k w ws w ws (normalizeOneProp_idem v w hw) (ih ws hws)

lemma normalizeEntries_strict (l l' : List (String × Json))
    (h : normalizeEntries l = .ok l') : ∀ kv ∈ l', strictNodeOk kv.2 := by
  induction l generalizing l' with
  | nil =>
    rw [normalizeEntries_nil_spec l' h]
    intro kv hkv
    exact absurd hkv (List.not_mem_nil kv)
  | cons kv0 rest ih =>
    obtain ⟨k, v⟩ := kv0
    obtain ⟨w, ws, hw, hws, rfl⟩ := normalizeEntries_cons_spec k v rest l' h
    intro kv hkv
    rcases List.mem_cons.mp hkv with rfl | hkv2
    · exact normalizeOneProp_strict v w hw
    · exact ih ws hws kv hkv2

lemma normalizeEntries_forward (l l' : List (String × Json))
    (h : normalizeEntries l = .ok l') :
    ∀ kv ∈ l, ∃ w, normalizeOneProp kv.2 = .ok w ∧ (kv.1, w) ∈ l' := by
  induction l generalizing l' with
  | nil =>
    intro kv hkv
    exact absurd hkv (List.not_mem_nil kv)
  | cons kv0 rest ih =>
    obtain ⟨k, v⟩ := kv0
    obtain ⟨w, ws, hw, hws, rfl⟩ := normalizeEntries_cons_spec k v rest l' h
    intro kv hkv
    rcases List.mem_cons.mp hkv with rfl | hkv2
    · exact ⟨w, hw, List.mem_cons_self _ _⟩
    · obtain ⟨w2, hw2, hmem⟩ := ih ws hws kv hkv2
      exact ⟨w2, hw2, List.mem_cons_of_mem _ hmem⟩

lemma normalizeOneProp_ok (v : Json) (hv : v.isNull = false) :
    ∃ w, normalizeOneProp v = .ok w := by
  unfold normalizeOneProp
  rw [if_neg (by simp [hv])]
  by_cases ha : condArr v = true
  · rw [if_pos ha]
    cases v.lookupKey "items" with
    | none => exact ⟨_, rfl⟩
    | some it =>
      show ∃ w, (if (isStrEq (it.lookupKey "type") "object"
            && truthyOpt (it.lookupKey "properties")) = true then
          Except.ok (Json.obj [
            ("type", Json.str "array"),
            ("items", strictObjOf (jsEntries (jsOrJ (it.lookupKey "properties"))))])
        else Except.ok (Json.obj (jsEntries v))) = Except.ok w
      by_cases hio : (isStrEq (it.lookupKey "type") "object"
          && truthyOpt (it.lookupKey "properties")) = true
      · rw [if_pos hio]
        exact ⟨_, rfl⟩
      · rw [if_neg hio]
        exact ⟨_, rfl⟩
  · rw [if_neg ha]
    by_cases ho : condObj v = true
    · rw [if_pos ho]
      exact ⟨_, rfl⟩
    · rw [if_neg ho]
      exact ⟨_, rfl⟩

lemma normalizeEntries_ok (l : List (String × Json))
    (hl : ∀ kv ∈ l, (kv.2 : Json).isNull = false) :
    ∃ l', normalizeEntries l = .ok l' := by
  induction l with
  | nil => exact ⟨[], rfl⟩
  | cons kv rest ih =>
    obtain ⟨k, v⟩ := kv
    obtain ⟨w, hw⟩ := normalizeOneProp_ok v (hl (k, v) (List.mem_cons_self _ _))
    obtain ⟨ws, hws⟩ := ih (fun kv2 hkv2 => hl kv2 (List.mem_cons_of_mem _ hkv2))
    exact ⟨(k, w) :: ws, normalizeEntries_cons_ok k v rest w ws hw hws⟩

/-- Inversion of a successful `buildFirstPageInner` run. -/
lemma buildFirstPageInner_spec (fps S : Json) (h : buildFirstPageInner fps = .ok S) :
    fps.isNull = false ∧ ∃ sp, normalizeEntries (jsEntries (effProps fps)) = .ok sp ∧
      S = Json.obj [
        ("type", Json.str "object"),
        ("properties", Json.obj sp),
        ("required", Json.arr (requiredOf (jsEntries (effProps fps)))),
        ("additionalProperties", Json.bool false)] := by
  unfold buildFirstPageInner at h
  by_cases hn : fps.isNull = true
  · rw [if_pos hn] at h
    exact absurd h (by simp)
  · rw [if_neg hn] at h
    refine ⟨by simpa using hn, ?_⟩
    cases hsp : normalizeEntries (jsEntries (effProps fps)) with
    | error e =>
      rw [hsp] at h
      exact absurd h (by simp)
    | ok sp =>
      rw [hsp] at h
      exact ⟨sp, rfl, by simpa using h.symm⟩

lemma buildFirstPageInner_ok_of (fps : Json) (hn : fps.isNull = false)
    (sp : List (String × Json))
    (hsp : normalizeEntries (jsEntries (effProps fps)) = .ok sp) :
    buildFirstPageInner fps = .ok (Json.obj [
      ("type", Json.str "object"),
      ("properties", Json.obj sp),
      ("required", Json.arr (requiredOf (jsEntries (effProps fps)))),
      ("additionalProperties", Json.bool false)]) := by
  unfold buildFirstPageInner
  rw [if_neg (by simp [hn]), hsp]

/-- Claim C3: for every raw first-page schema that `buildFirstPageJsonSchema`
normalizes successfully, every object node in the normalized output (the
top-level schema, every normalized nested object property, and every
normalized array-item object) declares `additionalProperties = false` and a
`required` list that is exactly the set of its own declared property names,
no more and no fewer, in property-enumeration order. -/
theorem C3_required_completeness (fps S : Json) (h : buildFirstPageInner fps = .ok S) :
    ∃ sp, S = Json.obj [
        ("type", Json.str "object"),
        ("properties", Json.obj sp),
        ("required", Json.arr (requiredOf sp)),
        ("additionalProperties", Json.bool false)]
      ∧ ∀ kv ∈ sp, strictNodeOk kv.2 := by
  obtain ⟨hn, sp, hsp, hS⟩ := buildFirstPageInner_spec fps S h
  refine ⟨sp, ?_, normalizeEntries_strict _ _ hsp⟩
  rw [hS, normalizeEntries_requiredOf _ _ hsp]

/-- Witness for C3, on the spec's scenario schema. -/
theorem C3_witness :
    buildFirstPageInner c3fps = .ok c3out ∧
      (∃ sp, c3out = Json.obj [
          ("type", Json.str "object"),
          ("properties", Json.obj sp),
          ("required", Json.arr (requiredOf sp)),
          ("additionalProperties", Json.bool false)]
        ∧ ∀ kv ∈ sp, strictNodeOk kv.2) :=
  ⟨rfl, C3_required_completeness c3fps c3out rfl⟩

/-- Claim C4: normalization is idempotent; re-normalizing the schema tree
produced by a first normalization yields that same tree. -/
theorem C4_idempotent (fps S : Json) (h : buildFirstPageInner fps = .ok S) :
    buildFirstPageInner S = .ok S := by
  obtain ⟨hn, sp, hsp, hS⟩ := buildFirstPageInner_spec fps S h
  have hid := normalizeEntries_idem _ _ hsp
  have hreq := normalizeEntries_requiredOf _ _ hsp
  subst hS
  unfold buildFirstPageInner
  rw [if_neg (by simp [Json.isNull])]
  rw [show jsEntries (effProps (Json.obj [
      ("type", Json.str "object"),
      ("properties", Json.obj sp),
      ("required", Json.arr (requiredOf (jsEntries (effProps fps)))),
      ("additionalProperties", Json.bool false)])) = sp from rfl]
  rw [hid]
  show Except.ok (Json.obj [
      ("type", Json.str "object"),
      ("properties", Json.obj sp),
      ("required", Json.arr (requiredOf sp)),
      ("additionalProperties", Json.bool false)])
    = Except.ok (Json.obj [
      ("type", Json.str "object"),
      ("properties", Json.obj sp),
      ("required", Json.arr (requiredOf (jsEntries (effProps fps)))),
      ("additionalProperties", Json.bool false)])
  rw [hreq]

/-- Witness for C4 on a concrete schema with a `format`-carrying leaf. -/
theorem C4_witness :
    buildFirstPageInner c4fps = .ok c4out ∧ buildFirstPageInner c4out = .ok c4out :=
  ⟨rfl, C4_idempotent c4fps c4out rfl⟩

/-- Claim C7 counterexample: a first-page node whose declared property `a`
is JSON `null` (reachable from the schema document
`{"properties": {"firstPage": {"properties": {"a": null}}}}`) makes
`buildFirstPageJsonSchema` throw a `TypeError` at `prop.type`, so
normalization does not return without error on every input. -/
theorem C7_counterexample : buildFirstPageInner c7raw = .error () := rfl

/-- Claim C7 (amended): normalization returns without error whenever the
first-page node is non-`null` and every declared top-level property value is
non-`null`; with no `properties` key or no declared properties the result is
the empty strict object schema. -/
theorem C7_never_throws_amended (fps : Json) (h1 : fps.isNull = false)
    (h2 : allTopPropsNonNull fps = true) :
    (∃ S, buildFirstPageInner fps = .ok S) ∧
      (jsEntries (effProps fps) = [] → buildFirstPageInner fps = .ok emptyStrictSchema) := by
  have hl : ∀ kv ∈ jsEntries (effProps fps), (kv.2 : Json).isNull = false := by
    intro kv hkv
    have h3 := List.all_eq_true.mp h2 kv hkv
    simpa using h3
  obtain ⟨sp, hsp⟩ := normalizeEntries_ok _ hl
  refine ⟨⟨_, buildFirstPageInner_ok_of fps h1 sp hsp⟩, ?_⟩
  intro hemp
  have hb := buildFirstPageInner_ok_of fps h1 sp hsp
  rw [hemp] at hsp
  have hsp0 : sp = [] := normalizeEntries_nil_spec sp hsp
  subst hsp0
  rw [hemp] at hb
  exact hb

/-- Witness for the amended C7: a first-page node with no `properties` key
normalizes to the empty strict object schema. -/
theorem C7_witness : buildFirstPageInner (Json.obj []) = .ok emptyStrictSchema :=
  (C7_never_throws_amended (Json.obj []) rfl rfl).2 rfl

/-- Claim C1 counterexample: for the array-typed property `foo` whose
`items` is not an object with properties, the node is copied verbatim
INCLUDING its `format` keyword, so the normalized output does contain
`format` (the claim's "copied minus `format`" clause fails). -/
theorem C1_counterexample :
    buildFirstPageInner c1raw = .ok (Json.obj [
      ("type", Json.str "object"),
      ("properties", Json.obj [("foo", Json.obj [
        ("type", Json.str "array"),
        ("items", Json.obj [("type", Json.str "number")]),
        ("format", Json.str "int32")])]),
      ("required", Json.arr [Json.str "foo"]),
      ("additionalProperties", Json.bool false)])
    ∧ noFmtTop (Json.obj [
        ("type", Json.str "array"),
        ("items", Json.obj [("type", Json.str "number")]),
        ("format", Json.str "int32")]) = false :=
  ⟨rfl, rfl⟩

/-- Claim C1 (amended): in the normalized output, `format` is deleted from
the top level of every normalized leaf property, of every property of a
normalized nested object, and of every property of a normalized array's
object items; but an array property whose items are not an object with
properties is copied verbatim, retaining any `format` keyword (and `format`
keys nested deeper than the cleaned level are preserved). -/
theorem C1_format_deletion (fps S : Json) (h : buildFirstPageInner fps = .ok S) :
    ∀ kv ∈ jsEntries (effProps fps), ∃ w,
      normalizeOneProp kv.2 = .ok w ∧
      (∃ sp, S.lookupKey "properties" = some (Json.obj sp) ∧ (kv.1, w) ∈ sp) ∧
      (condArrObj kv.2 = true → noFmtTop w = true ∧ itemsPropsNoFmtTop w = true) ∧
      (condArr kv.2 = true → condArrObj kv.2 = false → w = Json.obj (jsEntries kv.2)) ∧
      (condArr kv.2 = false → condObj kv.2 = true →
        noFmtTop w = true ∧ ownPropsNoFmtTop w = true) ∧
      (condArr kv.2 = false → condObj kv.2 = false → noFmtTop w = true) := by
  obtain ⟨hn, sp, hsp, hS⟩ := buildFirstPageInner_spec fps S h
  intro kv hkv
  obtain ⟨w, hw, hmem⟩ := normalizeEntries_forward _ _ hsp kv hkv
  obtain ⟨f1, f2, f3, f4⟩ := normalizeOneProp_format kv.2 w hw
  refine ⟨w, hw, ⟨sp, ?_, hmem⟩, f1, f2, f3, f4⟩
  rw [hS]
  rfl

/-- Witness for the amended C1, exercising the verbatim-copy clause on the
counterexample schema. -/
theorem C1_witness :
    ∃ w, normalizeOneProp (Json.obj [
        ("type", Json.str "array"),
        ("items", Json.obj [("type", Json.str "number")]),
        ("format", Json.str "int32")]) = .ok w ∧
      (∃ sp, (Json.obj [
        ("type", Json.str "object"),
        ("properties", Json.obj [("foo", Json.obj [
          ("type", Json.str "array"),
          ("items", Json.obj [("type", Json.str "number")]),
          ("format", Json.str "int32")])]),
        ("required", Json.arr [Json.str "foo"]),
        ("additionalProperties", Json.bool false)]).lookupKey "properties"
          = some (Json.obj sp) ∧ ("foo", w) ∈ sp) ∧
      (condArrObj (Json.obj [
          ("type", Json.str "array"),
          ("items", Json.obj [("type", Json.str "number")]),
          ("format", Json.str "int32")]) = true →
        noFmtTop w = true ∧ itemsPropsNoFmtTop w = true) ∧
      (condArr (Json.obj [
          ("type", Json.str "array"),
          ("items", Json.obj [("type", Json.str "number")]),
          ("format", Json.str "int32")]) = true →
       condArrObj (Json.obj [
          ("type", Json.str "array"),
          ("items", Json.obj [("type", Json.str "number")]),
          ("format", Json.str "int32")]) = false →
        w = Json.obj (jsEntries (Json.obj [
          ("type", Json.str "array"),
          ("items", Json.obj [("type", Json.str "number")]),
          ("format", Json.str "int32")]))) ∧
      (condArr (Json.obj [
          ("type", Json.str "array"),
          ("items", Json.obj [("type", Json.str "number")]),
          ("format", Json.str "int32")]) = false →
       condObj (Json.obj [
          ("type", Json.str "array"),
          ("items", Json.obj [("type", Json.str "number")]),
          ("format", Json.str "int32")]) = true →
        noFmtTop w = true ∧ ownPropsNoFmtTop w = true) ∧
      (condArr (Json.obj [
          ("type", Json.str "array"),
          ("items", Json.obj [("type", Json.str "number")]),
          ("format", Json.str "int32")]) = false →
       condObj (Json.obj [
          ("type", Json.str "array"),
          ("items", Json.obj [("type", Json.str "number")]),
          ("format", Json.str "int32")]) = false →
        noFmtTop w = true) :=
  C1_format_deletion c1raw (Json.obj [
      ("type", Json.str "object"),
      ("properties", Json.obj [("foo", Json.obj [
        ("type", Json.str "array"),
        ("items", Json.obj [("type", Json.str "number")]),
        ("format", Json.str "int32")])]),
      ("required", Json.arr [Json.str "foo"]),
      ("additionalProperties", Json.bool false)]) rfl
    ("foo", Json.obj [
      ("type", Json.str "array"),
      ("items", Json.obj [("type", Json.str "number")]),
      ("format", Json.str "int32")])
    (List.mem_singleton.mpr rfl)

lemma innerLoopT_count (cur : Option Int) (ps : List InnerPageParagraph) :
    (innerLoopT cur ps).2 = runCountFrom cur (ps.filterMap (fun p => p.pageNumber)) := by
  induction ps generalizing cur with
  | nil => cases cur <;> rfl
  | cons p ps ih =>
    cases hpn : p.pageNumber with
    | none =>
      simp only [innerLoopT, hpn, List.filterMap_cons]
      exact ih cur
    | some n =>
      by_cases hc : some n = cur
      · simp only [innerLoopT, hpn, hc, if_pos, List.filterMap_cons]
        rw [← hc]
        simp only [runCountFrom, runCountAux, if_pos rfl]
        rw [ih (some n)]
        rfl
      · simp only [innerLoopT, hpn, if_neg hc, List.filterMap_cons]
        cases cur with
        | none =>
          simp only [runCountFrom, runCount]
          rw [ih (some n)]
          rfl
        | some c =>
          have hnc : ¬(n = c) := fun e => hc (by rw [e])
          simp only [runCountFrom, runCountAux, if_neg hnc]
          rw [ih (some n)]
          rfl

/-- Claim C2: `generateInnerPagesMarkdown` emits exactly one page-boundary
marker per maximal run of equal, present page numbers in the block sequence;
blocks with absent page numbers never trigger a marker. `markerCount`
counts the firings of the marker branch of the loop whose emitted lines are
`generateInnerPagesMarkdown`; `runCount` counts the maximal runs of the
present page numbers. -/
theorem C2_page_marker_count (ps : List InnerPageParagraph) :
    markerCount ps = runCount (ps.filterMap (fun p => p.pageNumber)) :=
  innerLoopT_count none ps

lemma map_const_sep (l : List String) :
    l.map (fun _ => "---") = List.replicate l.length "---" := by
  induction l with
  | nil => rfl
  | cons a tl ih => simp [List.replicate_succ, ih]

/-- Claim C5: a table-styled block with non-empty headers of length `k`
renders as the header row, a separator row with exactly `k` column markers,
one line per data row carrying that row's cells verbatim, then a blank line;
with empty headers it renders nothing. -/
theorem C5_table_invariant (p : InnerPageParagraph) (t : TableData)
    (hs : p.style = "table") (ht : p.table = some t) :
    (t.headers ≠ [] →
      renderStyle p =
        ["| " ++ String.intercalate " | " t.headers ++ " |",
         "| " ++ String.intercalate " | " (List.replicate t.headers.length "---") ++ " |"]
        ++ t.rows.map (fun row => "| " ++ String.intercalate " | " row ++ " |")
        ++ [""]) ∧
    (t.headers = [] → renderStyle p = []) := by
  constructor
  · intro hne
    unfold renderStyle
    rw [hs, ht]
    show (if t.headers.length > 0 then
        ["| " ++ String.intercalate " | " t.headers ++ " |",
         "| " ++ String.intercalate " | " (t.headers.map (fun _ => "---")) ++ " |"]
        ++ t.rows.map (fun row => "| " ++ String.intercalate " | " row ++ " |")
        ++ [""]
      else []) = _
    rw [if_pos (List.length_pos.mpr hne), map_const_sep]
  · intro h0
    unfold renderStyle
    rw [hs, ht]
    show (if t.headers.length > 0 then
        ["| " ++ String.intercalate " | " t.headers ++ " |",
         "| " ++ String.intercalate " | " (t.headers.map (fun _ => "---")) ++ " |"]
        ++ t.rows.map (fun row => "| " ++ String.intercalate " | " row ++ " |")
        ++ [""]
      else []) = []
    rw [h0]
    rfl

/-- Witness for C5 (short and long data rows pass through verbatim). -/
theorem C5_witness :
    renderStyle ⟨"table", none, some ⟨["a", "b"], [["x"], ["y", "z", "w"]]⟩, none⟩
      = ["| a | b |", "| --- | --- |", "| x |", "| y | z | w |", ""] :=
  (C5_table_invariant ⟨"table", none, some ⟨["a", "b"], [["x"], ["y", "z", "w"]]⟩, none⟩
    ⟨["a", "b"], [["x"], ["y", "z", "w"]]⟩ rfl rfl).1 (by decide)

/-- Claim C10: a block of a recognized text-rendering style (every style
except `page header`, `page footer` and `table`) whose text is `null` or
absent still emits that style's formatted line with the empty string
substituted, rather than being skipped; only the unrecognized-tag fallback
skips a block with missing text. -/
theorem C10_missing_text (p : InnerPageParagraph) (h : p.text = none) :
    (p.style ∈ recognizedTextStyles →
      renderStyle p = emptyTextLines p.style ∧ renderStyle p ≠ []) ∧
    (p.style ∉ allStyles → renderStyle p = []) := by
  obtain ⟨st, tx, tb, pn⟩ := p
  have h2 : tx = none := h
  subst h2
  constructor
  · intro hm
    simp only [recognizedTextStyles, List.mem_cons, List.not_mem_nil, or_false] at hm
    rcases hm with rfl | rfl | rfl | rfl | rfl | rfl | rfl | rfl | rfl | rfl | rfl
    all_goals exact ⟨rfl, fun he => List.noConfusion he⟩
  · intro hns
    have hne : ∀ s, s ∈ allStyles → st ≠ s := fun s hs e => hns (e ▸ hs)
    have e1 : (st == "page header") = false :=
      beq_eq_false_iff_ne.mpr (hne "page header" (by decide))
    have e2 : (st == "chapter heading") = false :=
      beq_eq_false_iff_ne.mpr (hne "chapter heading" (by decide))
    have e3 : (st == "subheading 1") = false :=
      beq_eq_false_iff_ne.mpr (hne "subheading 1" (by decide))
    have e4 : (st == "subheading 2") = false :=
      beq_eq_false_iff_ne.mpr (hne "subheading 2" (by decide))
    have e5 : (st == "body text") = false :=
      beq_eq_false_iff_ne.mpr (hne "body text" (by decide))
    have e6 : (st == "callout") = false :=
      beq_eq_false_iff_ne.mpr (hne "callout" (by decide))
    have e7 : (st == "exhibit title") = false :=
      beq_eq_false_iff_ne.mpr (hne "exhibit title" (by decide))
    have e8 : (st == "exhibit source") = false :=
      beq_eq_false_iff_ne.mpr (hne "exhibit source" (by decide))
    have e9 : (st == "bullet level 1") = false :=
      beq_eq_false_iff_ne.mpr (hne "bullet level 1" (by decide))
    have e10 : (st == "bullet level 2") = false :=
      beq_eq_false_iff_ne.mpr (hne "bullet level 2" (by decide))
    have e11 : (st == "bullet level 3") = false :=
      beq_eq_false_iff_ne.mpr (hne "bullet level 3" (by decide))
    have e12 : (st == "page footer") = false :=
      beq_eq_false_iff_ne.mpr (hne "page footer" (by decide))
    have e13 : (st == "footnote") = false :=
      beq_eq_false_iff_ne.mpr (hne "footnote" (by decide))
    have e14 : (st == "table") = false :=
      beq_eq_false_iff_ne.mpr (hne "table" (by decide))
    unfold renderStyle
    simp only [e1, e2, e3, e4, e5, e6, e7, e8, e9, e10, e11, e12, e13, e14,
      Bool.false_eq_true, if_false]
    simp

/-- Witness for C10: a chapter heading with missing text still renders. -/
theorem C10_witness :
    renderStyle ⟨"chapter heading", none, none, none⟩
        = emptyTextLines "chapter heading" ∧
      renderStyle ⟨"chapter heading", none, none, none⟩ ≠ [] :=
  (C10_missing_text ⟨"chapter heading", none, none, none⟩ rfl).1 (by decide)

lemma jsOr_some_falsy (v b : Json) (h : v.truthy = false) : jsOr (some v) b = b := by
  show (if v.truthy = true then v else b) = b
  rw [if_neg (by simp [h])]

/-- Claim C9: `generateFirstPageMarkdown` selects the title and subtitle by
JavaScript truthiness, not mere presence: a present-but-falsy `reportTitle`
(for example the empty string) makes the title fall back to `title` and then
to the literal `Report`, and a present-but-empty `reportSubTitle` produces
no subtitle heading. -/
theorem C9_title_truthiness (fp : List (String × Json)) (v : Json)
    (h1 : fpLookup fp "reportTitle" = some v) (h2 : v.truthy = false) :
    firstPageTitle fp = jsOr (fpLookup fp "title") (Json.str "Report") ∧
    (fpLookup fp "title" = none → firstPageTitle fp = Json.str "Report") ∧
    (fpLookup fp "reportSubTitle" = some (Json.str "") → subtitleLines fp = []) ∧
    (firstPageMarkdownPrefix fp).head? = some ("# " ++ jsToString (firstPageTitle fp)) := by
  have ht : firstPageTitle fp = jsOr (fpLookup fp "title") (Json.str "Report") := by
    unfold firstPageTitle
    rw [h1]
    exact jsOr_some_falsy _ _ h2
  refine ⟨ht, ?_, ?_, rfl⟩
  · intro hn
    rw [ht, hn]
    rfl
  · intro hsub
    unfold subtitleLines
    rw [hsub]
    rw [if_neg (by decide)]

/-- Witness for C9: an empty-string `reportTitle` with no `title` field
falls back to the literal `Report`, and an empty `reportSubTitle` yields no
subtitle lines. -/
theorem C9_witness :
    firstPageTitle [("reportTitle", Json.str ""), ("reportSubTitle", Json.str "")]
        = Json.str "Report" ∧
      subtitleLines [("reportTitle", Json.str ""), ("reportSubTitle", Json.str "")] = [] :=
  ⟨(C9_title_truthiness [("reportTitle", Json.str ""), ("reportSubTitle", Json.str "")]
      (Json.str "") rfl rfl).2.1 rfl,
   (C9_title_truthiness [("reportTitle", Json.str ""), ("reportSubTitle", Json.str "")]
      (Json.str "") rfl rfl).2.2.1 rfl⟩

lemma displayMetadataAux_eq (fp : List (String × Json)) (fs : List String) :
    displayMetadataAux fp fs
      = (fs.filter (fun f => presentNonNull fp f)).map
          (fun f => (mkLabel f, fieldValue fp f)) := by
  induction fs with
  | nil => rfl
  | cons f fs ih =>
    by_cases hp : presentNonNull fp f = true
    · simp only [displayMetadataAux, hp, if_true, List.filter_cons, List.map_cons, ih]
    · have hp2 : presentNonNull fp f = false := by simpa using hp
      simp only [displayMetadataAux, hp2, Bool.false_eq_true, if_false, List.filter_cons, ih]

lemma displayMetadataAux_mem (fp : List (String × Json)) (fs : List String) (f : String)
    (hf : f ∈ fs) (hp : presentNonNull fp f = true) :
    (mkLabel f, fieldValue fp f) ∈ displayMetadataAux fp fs := by
  induction fs with
  | nil => exact absurd hf (List.not_mem_nil f)
  | cons g gs ih =>
    rcases List.mem_cons.mp hf with rfl | hf2
    · simp only [displayMetadataAux, hp, if_true]
      exact List.mem_cons_self _ _
    · by_cases hg : presentNonNull fp g = true
      · simp only [displayMetadataAux, hg, if_true]
        exact List.mem_cons_of_mem _ (ih hf2)
      · have hg2 : presentNonNull fp g = false := by simpa using hg
        simp only [displayMetadataAux, hg2, Bool.false_eq_true, if_false]
        exact ih hf2

/-- Claim C6: the metadata table of `generateFirstPageMarkdown` considers
exactly the ten allowlisted fields; a row appears iff the field is present
and non-`null`; each label is the field name split at internal uppercase
letters into space-separated capitalized words; the `upsideDownside` value
gets a `%` suffix; and the whole table, headers included, is omitted when no
row qualifies. -/
theorem C6_metadata_table (fp : List (String × Json)) :
    displayMetadata fp
      = (metadataFields.filter (fun f => presentNonNull fp f)).map
          (fun f => (mkLabel f, fieldValue fp f)) ∧
    metadataFields.map mkLabel
      = ["Report Type", "Report Date", "Company Name", "Sector Name", "Bloomberg Code",
         "Rating", "Previous Rating", "Target Price", "Market Price", "Upside Downside"] ∧
    (∀ v : Json, fpLookup fp "upsideDownside" = some v → v.isNull = false →
      ("Upside Downside", jsToString v ++ "%") ∈ displayMetadata fp) ∧
    (displayMetadata fp = [] → metadataTableLines fp = []) ∧
    (displayMetadata fp ≠ [] →
      metadataTableLines fp
        = ["| Field | Value |", "|-------|-------|"]
          ++ (displayMetadata fp).map (fun lv => "| " ++ lv.1 ++ " | " ++ lv.2 ++ " |")
          ++ [""]) := by
  refine ⟨displayMetadataAux_eq fp metadataFields, by decide, ?_, ?_, ?_⟩
  · intro v hv hnn
    have hp : presentNonNull fp "upsideDownside" = true := by
      unfold presentNonNull
      rw [hv]
      show (!v.isNull) = true
      rw [hnn]
      rfl
    have hfv : fieldValue fp "upsideDownside" = jsToString v ++ "%" := by
      unfold fieldValue
      rw [hv]
      rfl
    have h3 := displayMetadataAux_mem fp metadataFields "upsideDownside" (by decide) hp
    rw [hfv] at h3
    exact h3
  · intro h0
    unfold metadataTableLines
    rw [h0]
    rfl
  · intro hne
    unfold metadataTableLines
    rw [if_pos (List.length_pos.mpr hne)]

/-- Witness for C6: a present `upsideDownside` of `"12"` yields the row
`("Upside Downside", "12%")`, and with no qualifying rows the table lines
are empty. -/
theorem C6_witness :
    ("Upside Downside", "12%") ∈ displayMetadata [("upsideDownside", Json.str "12")] ∧
      metadataTableLines [] = [] :=
  ⟨(C6_metadata_table [("upsideDownside", Json.str "12")]).2.2.1 (Json.str "12") rfl rfl,
   (C6_metadata_table []).2.2.2.1 rfl⟩

/-- Claim C8: `generateFirstPagePrompt` is a deterministic pure function of
its two inputs; on every non-`null` schema it agrees with the spec-side
rendering `firstPagePromptSpec`, which bullets the top-level field names in
enumeration order and picks the label `sector` exactly when the schema name
contains the substring `sector`, otherwise `stock research`, inside the
fixed instructional template. -/
theorem C8_prompt_pure (schema : Json) (schemaName : String) (h : schema.isNull = false) :
    generateFirstPagePrompt schema schemaName
      = .ok (firstPagePromptSpec ((jsEntries (effProps schema)).map Prod.fst) schemaName) := by
  simp only [generateFirstPagePrompt, firstPagePromptSpec, effProps, h,
    Bool.false_eq_true, if_false, List.map_map]
  rfl

/-- Witness for C8 on a two-field schema and a sector-flavoured name. -/
theorem C8_witness :
    generateFirstPagePrompt
        (Json.obj [("properties", Json.obj [("a", Json.bool true), ("b", Json.num 1)])])
        "sector_report"
      = .ok (firstPagePromptSpec ["a", "b"] "sector_report") :=
  C8_prompt_pure
    (Json.obj [("properties", Json.obj [("a", Json.bool true), ("b", Json.num 1)])])
    "sector_report" rfl
